import Mathlib

set_option maxRecDepth 8000

/-!
Shallow embedding of the DICOM-to-3D pipeline implemented by
`Arquivo3DFactoryImpl` in `app/arquivo3D/factory.py`: volume assembly from
decoded slice datasets, voxel-spacing derivation, isosurface-extraction
level selection with its fallback ladder, mesh post-processing, slice
rendering, image normalization, and mesh editing.  Scalar values are
modelled in exact rational arithmetic; external library calls (scipy
filters, trimesh operations) are modelled at the granularity stated in the
doc comment of each definition.
-/

namespace SID3D

/-! ### Running minimum / maximum of a list, via `List.foldl` -/

theorem foldl_min_le_init (l : List ℚ) (a : ℚ) : l.foldl min a ≤ a := by
  induction l generalizing a with
  | nil => simp
  | cons x xs ih => exact le_trans (ih (min a x)) (min_le_left a x)

theorem foldl_min_le_mem {l : List ℚ} {b : ℚ} (h : b ∈ l) (a : ℚ) : l.foldl min a ≤ b := by
  induction l generalizing a with
  | nil => cases h
  | cons x xs ih =>
    rcases List.mem_cons.mp h with rfl | hx
    · exact le_trans (foldl_min_le_init xs (min a b)) (min_le_right a b)
    · exact ih hx (min a x)

theorem init_le_foldl_max (l : List ℚ) (a : ℚ) : a ≤ l.foldl max a := by
  induction l generalizing a with
  | nil => simp
  | cons x xs ih => exact le_trans (le_max_left a x) (ih (max a x))

theorem mem_le_foldl_max {l : List ℚ} {b : ℚ} (h : b ∈ l) (a : ℚ) : b ≤ l.foldl max a := by
  induction l generalizing a with
  | nil => cases h
  | cons x xs ih =>
    rcases List.mem_cons.mp h with rfl | hx
    · exact le_trans (le_max_right a b) (init_le_foldl_max xs (max a b))
    · exact ih hx (max a x)

theorem foldl_min_const : ∀ (l : List ℚ) (c : ℚ), (∀ b ∈ l, b = c) → l.foldl min c = c
  | [], _, _ => rfl
  | x :: xs, c, h => by
    have hx : x = c := h x (by simp)
    have h' : ∀ b ∈ xs, b = c := fun b hb => h b (by simp [hb])
    show xs.foldl min (min c x) = c
    rw [hx, min_self]
    exact foldl_min_const xs c h'

theorem foldl_max_const : ∀ (l : List ℚ) (c : ℚ), (∀ b ∈ l, b = c) → l.foldl max c = c
  | [], _, _ => rfl
  | x :: xs, c, h => by
    have hx : x = c := h x (by simp)
    have h' : ∀ b ∈ xs, b = c := fun b hb => h b (by simp [hb])
    show xs.foldl max (max c x) = c
    rw [hx, max_self]
    exact foldl_max_const xs c h'

/-! ### Volume assembly (`_create_3d_volume`, factory.py lines 113-251)

A `Dataset` records the attributes of one decoded DICOM file that
`_create_3d_volume` consults; `none` models a missing attribute
(`hasattr` returning false).  Only single-frame (2-dimensional
`pixel_array`) files are embedded: the claims quantify over volumes
assembled from single-frame slices, so the multi-frame and color-image
branches (factory.py lines 177-213) stay outside the embedding. -/

/-- A decoded 2D pixel grid (`dataset.pixel_array` of a single-frame file),
row-major, with scalar values in exact rational arithmetic. -/
abbrev Frame := List (List ℚ)

structure Dataset where
  pixel : Option Frame
  pixelSpacing : Option (ℚ × ℚ)
  sliceThickness : Option ℚ
  spacingBetweenSlices : Option ℚ
  sliceLocation : Option ℚ
  imagePositionZ : Option ℚ
  rescaleSlope : Option ℚ
  rescaleIntercept : Option ℚ
deriving DecidableEq

/-- z-ordering key of a dataset (factory.py lines 162-172): `SliceLocation`
when present, else the z-component of `ImagePositionPatient`, else 0. -/
def zkey (d : Dataset) : ℚ :=
  d.sliceLocation.getD (d.imagePositionZ.getD 0)

/-- Hounsfield rescale (factory.py lines 158-159): applied only when both
`RescaleSlope` and `RescaleIntercept` are present. -/
def rescale (d : Dataset) (f : Frame) : Frame :=
  match d.rescaleSlope, d.rescaleIntercept with
  | some s, some i => f.map (fun row => row.map (fun x => x * s + i))
  | _, _ => f

/-- The `(z-position, slice)` pairs appended to `slices` by the processing
loop; datasets without pixel data are skipped (factory.py lines 131-133). -/
def collectSlices (ds : List Dataset) : List (ℚ × Frame) :=
  ds.filterMap (fun d => d.pixel.map (fun f => (zkey d, rescale d f)))

/-- Key order used by `slices.sort(key=lambda x: x[0])` (factory.py line 225). -/
def keyLe (a b : ℚ × Frame) : Prop := a.1 ≤ b.1

instance : DecidableRel keyLe := fun a b => decidable_of_iff (a.1 ≤ b.1) Iff.rfl

instance : IsTotal (ℚ × Frame) keyLe := ⟨fun a b => le_total a.1 b.1⟩

instance : IsTrans (ℚ × Frame) keyLe := ⟨fun _ _ _ h₁ h₂ => le_trans h₁ h₂⟩

/-- The slice list after the in-place sort by z-position (factory.py line 225);
Python's stable sort is modelled by a stable insertion sort. -/
def sortSlices (ds : List Dataset) : List (ℚ × Frame) :=
  List.insertionSort keyLe (collectSlices ds)

/-- First declared `PixelSpacing` among the datasets that have pixel data
(factory.py lines 138-143; files without pixel data are skipped before the
capture). -/
def capturePx (ds : List Dataset) : Option (ℚ × ℚ) :=
  (ds.filter (fun d => d.pixel.isSome)).findSome? (fun d => d.pixelSpacing)

/-- First declared `SliceThickness`, falling back within the same dataset to
`SpacingBetweenSlices` (factory.py lines 145-155). -/
def captureZ (ds : List Dataset) : Option ℚ :=
  (ds.filter (fun d => d.pixel.isSome)).findSome?
    (fun d => d.sliceThickness <|> d.spacingBetweenSlices)

/-- `np.diff`: differences of consecutive elements. -/
def consecDiffs (l : List ℚ) : List ℚ :=
  (l.zip l.tail).map (fun p => p.2 - p.1)

/-- `np.median` in exact arithmetic: middle element of the sorted list for odd
length, mean of the two middle elements for even length. -/
def median (l : List ℚ) : ℚ :=
  let s := List.insertionSort (fun a b : ℚ => a ≤ b) l
  if s.length % 2 = 1 then s.getD (s.length / 2) 0
  else (s.getD (s.length / 2 - 1) 0 + s.getD (s.length / 2) 0) / 2

/-- Voxel-spacing derivation (factory.py lines 230-248), producing the
`(z, row, col)` triple stored as `self.voxel_spacing`.  The
median-of-z-differences fallback runs only under the code's guard
`px_spacing is not None and z_spacing is None`. -/
def deriveSpacing (zs : List ℚ) (px : Option (ℚ × ℚ)) (zsp : Option ℚ) : ℚ × ℚ × ℚ :=
  let zsp1 :=
    if px.isSome && zsp.isNone then
      let diffs := consecDiffs (List.insertionSort (fun a b : ℚ => a ≤ b) zs)
      if 0 < diffs.length then some (median diffs) else zsp
    else zsp
  let pxv := px.getD (1, 1)
  (zsp1.getD 1, pxv.1, pxv.2)

/-- Shape of a 2D array, as `np.stack` compares shapes. -/
def frameShape (f : Frame) : ℕ × List ℕ := (f.length, f.map List.length)

/-- `np.stack` (factory.py line 228) succeeds only when every slice has the
same shape. -/
def shapesOk (frames : List Frame) : Bool :=
  frames.all (fun f => decide (frameShape f = frameShape (frames.headD [])))

inductive VolErr
  | noValidSlices
  | stackShapeMismatch
deriving DecidableEq

instance {ε α : Type} [DecidableEq ε] [DecidableEq α] : DecidableEq (Except ε α) := fun x y =>
  match x, y with
  | .ok a, .ok b =>
      decidable_of_iff (a = b) ⟨fun h => by rw [h], fun h => by injection h⟩
  | .error a, .error b =>
      decidable_of_iff (a = b) ⟨fun h => by rw [h], fun h => by injection h⟩
  | .ok _, .error _ => isFalse (fun h => by injection h)
  | .error _, .ok _ => isFalse (fun h => by injection h)

/-- `_create_3d_volume` (factory.py lines 113-251): collect usable slices,
fail when none remain, sort by z-position, stack into a depth-major volume
and derive the voxel spacing. -/
def create3dVolume (ds : List Dataset) : Except VolErr (List Frame × (ℚ × ℚ × ℚ)) :=
  let slices := collectSlices ds
  if slices.isEmpty then .error .noValidSlices
  else
    let sorted := sortSlices ds
    let frames := sorted.map Prod.snd
    if shapesOk frames then
      .ok (frames, deriveSpacing (sorted.map Prod.fst) (capturePx ds) (captureZ ds))
    else .error .stackShapeMismatch

theorem collectSlices_length (ds : List Dataset) :
    (collectSlices ds).length = (ds.filter (fun d => d.pixel.isSome)).length := by
  induction ds with
  | nil => rfl
  | cons d ds ih =>
    cases h : d.pixel with
    | none => simpa [collectSlices, List.filterMap_cons, List.filter_cons, h] using ih
    | some f => simpa [collectSlices, List.filterMap_cons, List.filter_cons, h] using ih

/-- C1: a volume assembled from single-frame slices with distinct z-keys has
depth equal to the number of usable slices, and its depth axis is ordered by
strictly ascending z-key, regardless of submission order. -/
theorem volume_depth_and_order (ds : List Dataset)
    (hne : collectSlices ds ≠ [])
    (hkeys : ((collectSlices ds).map Prod.fst).Nodup)
    (hsh : shapesOk ((sortSlices ds).map Prod.snd) = true) :
    create3dVolume ds =
      .ok ((sortSlices ds).map Prod.snd,
        deriveSpacing ((sortSlices ds).map Prod.fst) (capturePx ds) (captureZ ds))
    ∧ ((sortSlices ds).map Prod.snd).length = (ds.filter (fun d => d.pixel.isSome)).length
    ∧ ((sortSlices ds).map Prod.fst).Pairwise (· < ·) := by
  refine ⟨?_, ?_, ?_⟩
  · simp only [create3dVolume]
    rw [if_neg (by simpa using hne), if_pos hsh]
  · have hperm := List.perm_insertionSort keyLe (collectSlices ds)
    calc ((sortSlices ds).map Prod.snd).length
        = (sortSlices ds).length := List.length_map _ _
      _ = (collectSlices ds).length := hperm.length_eq
      _ = _ := collectSlices_length ds
  · have hs : List.Sorted keyLe (sortSlices ds) :=
      List.sorted_insertionSort keyLe (collectSlices ds)
    have hle : ((sortSlices ds).map Prod.fst).Pairwise (· ≤ ·) :=
      List.pairwise_map.mpr hs
    have hnd : ((sortSlices ds).map Prod.fst).Nodup := by
      have hp : List.Perm ((sortSlices ds).map Prod.fst) ((collectSlices ds).map Prod.fst) :=
        (List.perm_insertionSort keyLe (collectSlices ds)).map Prod.fst
      exact hp.nodup_iff.mpr hkeys
    exact List.Sorted.lt_of_le hle hnd

/-- Slice with z-key 5.0, submitted first in the C1 scenario. -/
def dsZ5 : Dataset := ⟨some [[0]], none, none, none, some 5, none, none, none⟩

/-- Slice with z-key 1.0, submitted second in the C1 scenario. -/
def dsZ1 : Dataset := ⟨some [[1]], none, none, none, some 1, none, none, none⟩

/-- Witness for C1 at the spec's concrete scenario: z-keys 5.0 then 1.0, in
that submission order; depth index 0 holds the z-key-1.0 slice `[[1]]` and
index 1 the z-key-5.0 slice `[[0]]`. -/
theorem volume_depth_and_order_witness :
    (create3dVolume [dsZ5, dsZ1] =
        .ok ((sortSlices [dsZ5, dsZ1]).map Prod.snd,
          deriveSpacing ((sortSlices [dsZ5, dsZ1]).map Prod.fst)
            (capturePx [dsZ5, dsZ1]) (captureZ [dsZ5, dsZ1]))
      ∧ ((sortSlices [dsZ5, dsZ1]).map Prod.snd).length
          = (([dsZ5, dsZ1]).filter (fun d => d.pixel.isSome)).length
      ∧ ((sortSlices [dsZ5, dsZ1]).map Prod.fst).Pairwise (· < ·))
    ∧ (sortSlices [dsZ5, dsZ1]).map Prod.snd = [[[1]], [[0]]] :=
  ⟨volume_depth_and_order [dsZ5, dsZ1] (by decide) (by decide) (by decide), by decide⟩

/-- C5 (amended): the depth component of the voxel spacing is the declared
slice-thickness or inter-slice-spacing value when one is present; the
median-of-consecutive-sorted-z-differences fallback is attempted only when
a pixel spacing was declared and no thickness field was; in every other
undeclared case the depth spacing falls back to 1.0.  Row/column spacing is
the declared pixel spacing, falling back to 1.0/1.0. -/
theorem depth_spacing_rule (zs : List ℚ) (px : Option (ℚ × ℚ)) (zsp : Option ℚ) :
    (∀ t, zsp = some t → (deriveSpacing zs px zsp).1 = t)
    ∧ (zsp = none → px.isSome →
        consecDiffs (List.insertionSort (fun a b : ℚ => a ≤ b) zs) ≠ [] →
        (deriveSpacing zs px zsp).1
          = median (consecDiffs (List.insertionSort (fun a b : ℚ => a ≤ b) zs)))
    ∧ (zsp = none → px = none → (deriveSpacing zs px zsp).1 = 1)
    ∧ (zsp = none → consecDiffs (List.insertionSort (fun a b : ℚ => a ≤ b) zs) = [] →
        (deriveSpacing zs px zsp).1 = 1)
    ∧ (∀ p, px = some p → (deriveSpacing zs px zsp).2 = p)
    ∧ (px = none → (deriveSpacing zs px zsp).2 = (1, 1)) := by
  refine ⟨?_, ?_, ?_, ?_, ?_, ?_⟩
  · intro t ht; subst ht; simp [deriveSpacing]
  · intro h0 h1 h2
    subst h0
    obtain ⟨p, rfl⟩ := Option.isSome_iff_exists.mp h1
    simp [deriveSpacing, if_pos (List.length_pos.mpr h2)]
  · intro h0 h1; subst h0; subst h1; simp [deriveSpacing]
  · intro h0 h2
    subst h0
    cases px with
    | none => simp [deriveSpacing]
    | some p => simp [deriveSpacing, h2]
  · intro p hp; subst hp; simp [deriveSpacing]
  · intro h; subst h; simp [deriveSpacing]

/-- Witness for C5 (amended): with declared pixel spacing (2, 3), no thickness
field and sorted z-keys 0, 4 the depth spacing is the median difference, and
the row/column spacing is the declared pair. -/
theorem depth_spacing_rule_witness :
    (deriveSpacing [0, 4] (some (2, 3)) (none : Option ℚ)).1
      = median (consecDiffs (List.insertionSort (fun a b : ℚ => a ≤ b) [0, 4]))
    ∧ (deriveSpacing [0, 4] (some (2, 3)) (none : Option ℚ)).2 = (2, 3) :=
  ⟨(depth_spacing_rule [0, 4] (some (2, 3)) none).2.1 rfl (by decide) (by decide),
   (depth_spacing_rule [0, 4] (some (2, 3)) none).2.2.2.2.1 (2, 3) rfl⟩

/-- Usable slice at z-key 0 with no declared spacing attributes. -/
def dsNoPxA : Dataset := ⟨some [[0]], none, none, none, some 0, none, none, none⟩

/-- Usable slice at z-key 4 with no declared spacing attributes. -/
def dsNoPxB : Dataset := ⟨some [[0]], none, none, none, some 4, none, none, none⟩

/-- Counterexample to C5 as stated: two usable slices with z-keys 0 and 4,
no declared pixel spacing and no thickness field.  The median of consecutive
sorted z-differences exists and equals 4, yet the assembled depth spacing is
1.0: the median fallback is skipped whenever pixel spacing is undeclared. -/
theorem median_fallback_skipped :
    create3dVolume [dsNoPxA, dsNoPxB] = .ok ([[[0]], [[0]]], (1, 1, 1))
    ∧ median (consecDiffs (List.insertionSort (fun a b : ℚ => a ≤ b) [0, 4])) = 4
    ∧ captureZ [dsNoPxA, dsNoPxB] = none
    ∧ (4 : ℚ) ≠ 1 := by
  refine ⟨by decide, ?_, by decide, by decide⟩
  norm_num [median, consecDiffs, List.insertionSort, List.orderedInsert]

/-! ### Factory instance state (`Arquivo3DFactoryImpl` fields) -/

/-- The mutable fields of the long-lived `Arquivo3DFactoryImpl` object.
`simplify_target_faces` and `voxel_spacing` are `Option`-valued because
those attributes do not exist on the instance until first assigned. -/
structure FactoryState where
  iso_value : ℚ
  smooth : Bool
  smooth_iterations : ℤ
  simplify_target_faces : Option ℕ
  voxel_spacing : Option (ℚ × ℚ × ℚ)
deriving DecidableEq

/-- `set_parameters` (factory.py lines 66-74): mutates the factory instance in
place; modelled as a state transformer. -/
def setParams (s : FactoryState) (iso : Option ℚ) (target : Option ℕ) : FactoryState :=
  let s1 := match iso with
    | some v => { s with iso_value := v }
    | none => s
  match target with
  | some t => { s1 with simplify_target_faces := some t }
  | none => s1

/-- `_create_3d_volume` including its write to `self.voxel_spacing`
(factory.py line 248): the factory state after the call carries the derived
spacing. -/
def create3dVolumeS (s : FactoryState) (ds : List Dataset) :
    Except VolErr (FactoryState × List Frame) :=
  (create3dVolume ds).map (fun r => ({ s with voxel_spacing := some r.2 }, r.1))

/-- `volume_3d.shape` of a stacked frame list: (depth, rows, cols). -/
def volumeShape (frames : List Frame) : ℕ × ℕ × ℕ :=
  (frames.length, (frames.headD []).length, ((frames.headD []).headD []).length)

/-- `get_volume_dimensions` (factory.py lines 540-547): builds the volume via
`_create_3d_volume` and returns its shape; the state after the call records
the voxel-spacing write performed by the inner call. -/
def getVolumeDimensions (s : FactoryState) (ds : List Dataset) :
    Except VolErr (FactoryState × (ℕ × ℕ × ℕ)) :=
  (create3dVolumeS s ds).map (fun r => (r.1, volumeShape r.2))

/-- Factory state before the C4 dimension query: no voxel spacing stored. -/
def s0 : FactoryState := ⟨100, true, 3, none, none⟩

/-- Usable single-frame slice for the C4 dimension query. -/
def dsC4 : Dataset := ⟨some [[0, 0]], none, none, none, none, none, none, none⟩

/-- C4 (code behavior at the failing input): a dimension-query entry point
writes the `voxel_spacing` field of the factory object — the state after the
call differs from the state before — and `set_parameters` likewise mutates
instance fields, so configuration is instance-level mutable state that
outlives the invocation, contradicting the claim. -/
theorem entry_point_writes_state :
    getVolumeDimensions s0 [dsC4]
      = .ok ({ s0 with voxel_spacing := some (1, 1, 1) }, (1, 1, 2))
    ∧ { s0 with voxel_spacing := some ((1 : ℚ), (1 : ℚ), (1 : ℚ)) } ≠ s0
    ∧ setParams s0 (some 42) (some 1000) ≠ s0 := by decide

/-! ### Mesh post-processing (`generate` tail, smoothing, validation, export) -/

/-- Triangle mesh: vertex coordinates and faces as vertex-index triples.
Per-vertex normals are not modelled; no claim consults them. -/
structure Mesh where
  vertices : List (ℚ × ℚ × ℚ)
  faces : List (ℕ × ℕ × ℕ)
deriving DecidableEq

/-- Model of `trimesh.smoothing.filter_laplacian` (external library, called at
factory.py line 470): Laplacian smoothing relocates vertices over the given
number of iterations and leaves the face list unchanged.  The vertex
relocation itself is abstracted as the identity map on coordinates, since no
claim depends on the smoothed positions — only on the face structure being
preserved. -/
def filterLaplacian (m : Mesh) (_iterations : ℕ) : Mesh :=
  { vertices := m.vertices.map id, faces := m.faces }

/-- `_smooth_mesh` (factory.py lines 459-480): applies `filter_laplacian` with
`iterations = max(0, self.smooth_iterations)`, skipping smoothing when the
count is not positive. -/
def smoothMesh (s : FactoryState) (m : Mesh) : Mesh :=
  if 0 < max 0 s.smooth_iterations then filterLaplacian m (max 0 s.smooth_iterations).toNat
  else m

inductive MeshErr
  | invalidMesh
deriving DecidableEq

/-- `_validate_and_dump_mesh` (factory.py lines 431-457): rejects a mesh with
zero faces.  The NaN/Infinity vertex check is vacuous in exact rational
arithmetic, where those values do not exist; the debug-dump side effects are
not modelled. -/
def validateMesh (m : Mesh) : Except MeshErr Unit :=
  if m.faces.length = 0 then .error .invalidMesh else .ok ()

/-- Serialized mesh buffer: `fmt` is the `file_type` tag the buffer was
actually exported with, standing for the concrete byte syntax of that
format. -/
structure Exported where
  fmt : String
  mesh : Mesh
deriving DecidableEq

/-- `_export_mesh` (factory.py lines 482-515): dispatch on the lowercased
format tag, defaulting to STL for unknown formats.  The external trimesh
serialization is modelled as tagging the mesh with the chosen format. -/
def exportMesh (m : Mesh) (file_format : String) : Exported :=
  if file_format.toLower = "stl" then ⟨"stl", m⟩
  else if file_format.toLower = "obj" then ⟨"obj", m⟩
  else if file_format.toLower = "ply" then ⟨"ply", m⟩
  else ⟨"stl", m⟩

/-- The conditional smoothing of `generate` (factory.py lines 96-98): the mesh
is replaced by its smoothed form only when the `smooth` flag is set. -/
def smoothedOf (s : FactoryState) (mesh : Mesh) : Mesh :=
  if s.smooth then smoothMesh s mesh else mesh

/-- The post-extraction tail of `generate` (factory.py lines 94-111): optional
smoothing, then validation, then export.  There is no decimation step between
smoothing and validation: `simplify_target_faces` is never read anywhere in
the pipeline. -/
def finishMesh (s : FactoryState) (mesh : Mesh) (file_format : String) :
    Except MeshErr Exported :=
  match validateMesh (smoothedOf s mesh) with
  | .error e => .error e
  | .ok _ => .ok (exportMesh (smoothedOf s mesh) file_format)

theorem smoothMesh_faces (s : FactoryState) (m : Mesh) :
    (smoothMesh s m).faces = m.faces := by
  unfold smoothMesh filterLaplacian
  split <;> rfl

theorem smoothedOf_faces (s : FactoryState) (m : Mesh) :
    (smoothedOf s m).faces = m.faces := by
  unfold smoothedOf
  split
  · exact smoothMesh_faces s m
  · rfl

theorem exportMesh_mesh (m : Mesh) (file_format : String) :
    (exportMesh m file_format).mesh = m := by
  unfold exportMesh
  split_ifs <;> rfl

/-- C3 (code behavior): the conversion pipeline after smoothing performs no
decimation whatsoever — every successfully exported mesh carries exactly the
face list of the mesh that entered post-processing, regardless of the
configured `simplify_target_faces` and of any face-count ceiling. -/
theorem no_decimation (s : FactoryState) (mesh : Mesh) (file_format : String)
    (out : Exported) (h : finishMesh s mesh file_format = .ok out) :
    out.mesh.faces = mesh.faces := by
  unfold finishMesh at h
  cases hv : validateMesh (smoothedOf s mesh) with
  | error e => rw [hv] at h; simp at h
  | ok u =>
    rw [hv] at h
    simp only [Except.ok.injEq] at h
    rw [← h, exportMesh_mesh, smoothedOf_faces]

/-- 60000 identical faces: a face count above the claimed 50000 ceiling. -/
def bigFaces : List (ℕ × ℕ × ℕ) := List.replicate 60000 (0, 1, 2)

/-- Mesh whose post-smoothing face count exceeds the claimed ceiling. -/
def bigMesh : Mesh := ⟨[(0, 0, 0)], bigFaces⟩

/-- Factory state with a configured target face count of 1000. -/
def sSimplify : FactoryState := ⟨100, true, 3, some 1000, none⟩

theorem bigFaces_length : bigFaces.length = 60000 := by
  show (List.replicate 60000 ((0 : ℕ), (1 : ℕ), (2 : ℕ))).length = 60000
  exact List.length_replicate 60000 (0, 1, 2)

theorem finishMesh_ok (s : FactoryState) (m : Mesh) (file_format : String)
    (hm : m.faces.length ≠ 0) :
    finishMesh s m file_format = .ok (exportMesh (smoothedOf s m) file_format) := by
  have hne : ¬((smoothedOf s m).faces.length = 0) := by
    rw [smoothedOf_faces]; exact hm
  have hval : validateMesh (smoothedOf s m) = .ok () := by
    unfold validateMesh
    exact if_neg hne
  unfold finishMesh
  rw [hval]

/-- Witness for C3 at the failing input: with `simplify_target_faces = 1000`
configured and a 60000-face post-smoothing mesh, the exported mesh still has
all 60000 faces. -/
theorem no_decimation_witness :
    (exportMesh (smoothedOf sSimplify bigMesh) ("stl")).mesh.faces = bigMesh.faces
    ∧ bigMesh.faces.length = 60000
    ∧ 50000 < 60000
    ∧ sSimplify.simplify_target_faces = some 1000 := by
  have hm : bigMesh.faces.length ≠ 0 := by
    show bigFaces.length ≠ 0
    rw [bigFaces_length]
    omega
  refine ⟨no_decimation sSimplify bigMesh ("stl") _
      (finishMesh_ok sSimplify bigMesh ("stl") hm), ?_, by omega, rfl⟩
  show bigFaces.length = 60000
  exact bigFaces_length

/-! ### Component filtering (`_remove_small_components`) -/

/-- Python's `max(xs, key=f)` over a nonempty list `x :: xs`: the first
element attaining the maximal key. -/
def pythonMax (key : Mesh → ℕ) (x : Mesh) : List Mesh → Mesh
  | [] => x
  | y :: ys => pythonMax key (if key x < key y then y else x) ys

/-- `_remove_small_components` (factory.py lines 383-400), expressed over the
connected-component list produced by `mesh.split(only_watertight=False)`
(an external trimesh call): a single-component mesh is returned unchanged;
otherwise components with fewer than `min_faces` faces are dropped; if no
component survives, the original mesh is returned; otherwise the largest
surviving component by face count is kept. -/
def removeSmallComponents (mesh : Mesh) (components : List Mesh)
    (min_faces : ℕ := 100) : Mesh :=
  if components.length = 1 then mesh
  else
    match components.filter (fun c => min_faces ≤ c.faces.length) with
    | [] => mesh
    | x :: xs => pythonMax (fun c => c.faces.length) x xs

theorem pythonMax_mem (key : Mesh → ℕ) : ∀ (xs : List Mesh) (x : Mesh),
    pythonMax key x xs ∈ x :: xs
  | [], x => by simp [pythonMax]
  | y :: ys, x => by
    show pythonMax key (if key x < key y then y else x) ys ∈ x :: y :: ys
    have h := pythonMax_mem key ys (if key x < key y then y else x)
    rcases List.mem_cons.mp h with he | hm
    · rw [he]
      split
      · exact List.mem_cons_of_mem x (List.mem_cons_self y ys)
      · exact List.mem_cons_self x (y :: ys)
    · exact List.mem_cons_of_mem x (List.mem_cons_of_mem y hm)

theorem le_pythonMax_key (key : Mesh → ℕ) : ∀ (xs : List Mesh) (x c : Mesh),
    c ∈ x :: xs → key c ≤ key (pythonMax key x xs)
  | [], x, c, hc => by
    rcases List.mem_cons.mp hc with he | hm
    · rw [he]; exact le_refl _
    · cases hm
  | y :: ys, x, c, hc => by
    show key c ≤ key (pythonMax key (if key x < key y then y else x) ys)
    have hrec : key (if key x < key y then y else x)
        ≤ key (pythonMax key (if key x < key y then y else x) ys) :=
      le_pythonMax_key key ys _ _ (List.mem_cons_self _ _)
    rcases List.mem_cons.mp hc with he | hm
    · have hx : key x ≤ key (if key x < key y then y else x) := by
        by_cases hk : key x < key y
        · rw [if_pos hk]; exact le_of_lt hk
        · rw [if_neg hk]
      rw [he]; exact le_trans hx hrec
    · rcases List.mem_cons.mp hm with hey | hmy
      · have hy : key y ≤ key (if key x < key y then y else x) := by
          by_cases hk : key x < key y
          · rw [if_pos hk]
          · rw [if_neg hk]; exact le_of_not_lt hk
        rw [hey]; exact le_trans hy hrec
      · exact le_pythonMax_key key ys _ c (List.mem_cons_of_mem _ hmy)

/-- C7: component filtering — a single-component mesh is returned unchanged;
with several components, those with fewer than 100 faces are discarded; if no
component has at least 100 faces, the original mesh is returned unchanged;
otherwise exactly the largest surviving component (at least 100 faces,
maximal face count among survivors) is kept. -/
theorem component_filtering (mesh : Mesh) (components : List Mesh) :
    (components.length = 1 → removeSmallComponents mesh components = mesh)
    ∧ (components.length ≠ 1 →
        components.filter (fun c => 100 ≤ c.faces.length) = [] →
        removeSmallComponents mesh components = mesh)
    ∧ (∀ x xs, components.length ≠ 1 →
        components.filter (fun c => 100 ≤ c.faces.length) = x :: xs →
        removeSmallComponents mesh components ∈ x :: xs
        ∧ 100 ≤ (removeSmallComponents mesh components).faces.length
        ∧ ∀ c ∈ x :: xs,
            c.faces.length ≤ (removeSmallComponents mesh components).faces.length) := by
  refine ⟨?_, ?_, ?_⟩
  · intro h1
    unfold removeSmallComponents
    rw [if_pos h1]
  · intro h1 hf
    unfold removeSmallComponents
    rw [if_neg h1, hf]
  · intro x xs h1 hf
    have hr : removeSmallComponents mesh components = pythonMax (fun c => c.faces.length) x xs := by
      unfold removeSmallComponents
      rw [if_neg h1, hf]
    refine ⟨hr ▸ pythonMax_mem _ xs x, ?_, ?_⟩
    · have hmem : removeSmallComponents mesh components ∈ x :: xs :=
        hr ▸ pythonMax_mem _ xs x
      have hmem' : removeSmallComponents mesh components
          ∈ components.filter (fun c => 100 ≤ c.faces.length) := by
        rw [hf]; exact hmem
      have := List.of_mem_filter hmem'
      simpa using this
    · intro c hc
      rw [hr]
      exact le_pythonMax_key (fun c => c.faces.length) xs x c hc

/-- Component with 150 faces. -/
def compA : Mesh := ⟨[], List.replicate 150 (0, 0, 0)⟩

/-- Component with 50 faces (below the threshold). -/
def compB : Mesh := ⟨[], List.replicate 50 (0, 0, 0)⟩

/-- Component with 200 faces (the largest survivor). -/
def compC : Mesh := ⟨[], List.replicate 200 (0, 0, 0)⟩

/-- The unsplit input mesh for the C7 witness. -/
def origMesh : Mesh := ⟨[], List.replicate 400 (0, 0, 0)⟩

/-- Witness for C7: three components of 150, 50 and 200 faces — the 50-face
one is discarded and the largest survivor is kept. -/
theorem component_filtering_witness :
    removeSmallComponents origMesh [compA, compB, compC] ∈ [compA, compC]
    ∧ 100 ≤ (removeSmallComponents origMesh [compA, compB, compC]).faces.length
    ∧ ∀ c ∈ [compA, compC],
        c.faces.length ≤ (removeSmallComponents origMesh [compA, compB, compC]).faces.length :=
  (component_filtering origMesh [compA, compB, compC]).2.2 compA [compC]
    (by decide) (by decide)

/-! ### Mesh editing (`edit_mesh`) -/

/-- Model of `trimesh.load(file_obj, file_type=...)` (external library, called
at factory.py line 592): the byte buffer is parsed according to the declared
`file_type`; a buffer that was exported in a different format does not parse
as the declared one. -/
def loadMesh (content : Exported) (file_type : String) : Option Mesh :=
  if content.fmt = file_type then some content.mesh else none

inductive EditErr
  | loadFailure
  | unknownOperation
  | emptyResult
deriving DecidableEq

/-- Axis-aligned editing box built from `box_center` and `box_size`
(factory.py lines 597-598). -/
structure Box where
  center : List ℚ
  size : List ℚ

/-- Emptiness check on a boolean-operation result (factory.py lines 610-612):
a non-Trimesh result (`none`) or an empty mesh raises the empty-result
error; otherwise the result is exported. -/
def checkEdited (r : Option Mesh) (output_format : String) : Except EditErr Exported :=
  match r with
  | some mm => if mm.faces.isEmpty then .error .emptyResult else .ok (exportMesh mm output_format)
  | none => .error .emptyResult

/-- `edit_mesh` (factory.py lines 575-616).  The CSG boolean itself (trimesh
`intersection` / `difference`) is external and passed in as `csg`; a `none`
result stands for an empty or non-Trimesh outcome.  The input buffer is
decoded with `file_type=output_format` — the requested output format, not a
format detected from the bytes. -/
def editMesh (csg : String → Mesh → Box → Option Mesh) (mesh_content : Exported)
    (operation : String) (box_center box_size : List ℚ) (output_format : String) :
    Except EditErr Exported :=
  match loadMesh mesh_content output_format with
  | none => .error .loadFailure
  | some m =>
    let box : Box := ⟨box_center, box_size⟩
    if operation = "intersect" then checkEdited (csg operation m box) output_format
    else if operation = "difference" then checkEdited (csg operation m box) output_format
    else .error .unknownOperation

/-- C10: the edit entry point decodes the input buffer with the requested
output format as the parser's file type; when the buffer's actual format
differs from `output_format`, the edit fails to load — even though the very
same buffer parses fine under its actual format. -/
theorem edit_parses_with_output_format
    (csg : String → Mesh → Box → Option Mesh) (content : Exported)
    (operation : String) (box_center box_size : List ℚ) (output_format : String)
    (hne : content.fmt ≠ output_format) :
    loadMesh content content.fmt = some content.mesh
    ∧ editMesh csg content operation box_center box_size output_format
        = .error .loadFailure := by
  constructor
  · simp [loadMesh]
  · simp [editMesh, loadMesh, hne]

/-- A buffer exported as OBJ holding a valid one-face mesh. -/
def objBuffer : Exported := ⟨"obj", ⟨[(0, 0, 0)], [(0, 1, 2)]⟩⟩

/-- Witness for C10: an OBJ buffer submitted to an edit requesting STL output
fails to load, while the same buffer parses under its true format. -/
theorem edit_parses_with_output_format_witness :
    loadMesh objBuffer objBuffer.fmt = some objBuffer.mesh
    ∧ editMesh (fun _ m _ => some m) objBuffer ("intersect") [0, 0, 0] [1, 1, 1] ("stl")
        = .error .loadFailure :=
  edit_parses_with_output_format (fun _ m _ => some m) objBuffer ("intersect")
    [0, 0, 0] [1, 1, 1] ("stl") (by decide)

/-! ### The 3D scalar volume and its statistics

`_extract_surface`, `_extract_slice_data` and `_normalize_to_image` operate
on the stacked `np.ndarray`.  The array is embedded as its shape together
with a total indexing function; `volume.min()` / `volume.max()` fold over
the in-range entries. -/

structure Volume3 where
  dep : ℕ
  rows : ℕ
  cols : ℕ
  val : ℕ → ℕ → ℕ → ℚ

/-- All in-range index triples, depth-major. -/
def idxList (v : Volume3) : List (ℕ × ℕ × ℕ) :=
  (List.range v.dep).flatMap fun z =>
    (List.range v.rows).flatMap fun y =>
      (List.range v.cols).map fun x => (z, y, x)

/-- All in-range entries of the volume. -/
def vals (v : Volume3) : List ℚ :=
  (idxList v).map fun p => v.val p.1 p.2.1 p.2.2

/-- `volume.min()` over a nonempty array. -/
def volMin (v : Volume3) : ℚ := (vals v).foldl min (v.val 0 0 0)

/-- `volume.max()` over a nonempty array. -/
def volMax (v : Volume3) : ℚ := (vals v).foldl max (v.val 0 0 0)

theorem volMin_le_volMax (v : Volume3) : volMin v ≤ volMax v :=
  le_trans (foldl_min_le_init _ _) (init_le_foldl_max _ _)

theorem mem_vals {v : Volume3} {z y x : ℕ}
    (hz : z < v.dep) (hy : y < v.rows) (hx : x < v.cols) :
    v.val z y x ∈ vals v := by
  unfold vals idxList
  refine List.mem_map.mpr ⟨(z, y, x), ?_, rfl⟩
  simp only [List.mem_flatMap, List.mem_range, List.mem_map]
  exact ⟨z, hz, y, hy, x, hx, rfl⟩

theorem volMin_le_val {v : Volume3} {z y x : ℕ}
    (hz : z < v.dep) (hy : y < v.rows) (hx : x < v.cols) :
    volMin v ≤ v.val z y x :=
  foldl_min_le_mem (mem_vals hz hy hx) _

theorem val_le_volMax {v : Volume3} {z y x : ℕ}
    (hz : z < v.dep) (hy : y < v.rows) (hx : x < v.cols) :
    v.val z y x ≤ volMax v :=
  mem_le_foldl_max (mem_vals hz hy hx) _

theorem val_eq_of_flat {v : Volume3} (h : volMin v = volMax v) {z y x : ℕ}
    (hz : z < v.dep) (hy : y < v.rows) (hx : x < v.cols) :
    v.val z y x = volMin v :=
  le_antisymm (by rw [h]; exact val_le_volMax hz hy hx) (volMin_le_val hz hy hx)

theorem volMin_of_const {v : Volume3} {c : ℚ}
    (hd : 0 < v.dep) (hr : 0 < v.rows) (hc : 0 < v.cols)
    (h : ∀ z y x, z < v.dep → y < v.rows → x < v.cols → v.val z y x = c) :
    volMin v = c := by
  have h0 : v.val 0 0 0 = c := h 0 0 0 hd hr hc
  have hall : ∀ b ∈ vals v, b = c := by
    intro b hb
    unfold vals idxList at hb
    obtain ⟨p, hp, rfl⟩ := List.mem_map.mp hb
    simp only [List.mem_flatMap, List.mem_range, List.mem_map] at hp
    obtain ⟨z, hz, y, hy, x, hx, rfl⟩ := hp
    exact h z y x hz hy hx
  unfold volMin
  rw [h0]
  exact foldl_min_const _ _ hall

theorem volMax_of_const {v : Volume3} {c : ℚ}
    (hd : 0 < v.dep) (hr : 0 < v.rows) (hc : 0 < v.cols)
    (h : ∀ z y x, z < v.dep → y < v.rows → x < v.cols → v.val z y x = c) :
    volMax v = c := by
  have h0 : v.val 0 0 0 = c := h 0 0 0 hd hr hc
  have hall : ∀ b ∈ vals v, b = c := by
    intro b hb
    unfold vals idxList at hb
    obtain ⟨p, hp, rfl⟩ := List.mem_map.mp hb
    simp only [List.mem_flatMap, List.mem_range, List.mem_map] at hp
    obtain ⟨z, hz, y, hy, x, hx, rfl⟩ := hp
    exact h z y x hz hy hx
  unfold volMax
  rw [h0]
  exact foldl_max_const _ _ hall

/-! ### Reflect-boundary correlation, Gaussian smoothing, Sobel gradient -/

/-- Reflect-boundary index (scipy boundary mode, as reached by radius-1
stencils): -1 reflects to 0 and n to n-1. -/
def refl1 (n : ℕ) (i : ℤ) : ℕ :=
  if i < 0 then 0 else if (n : ℤ) ≤ i then n - 1 else i.toNat

theorem refl1_lt {n : ℕ} (hn : 0 < n) (i : ℤ) : refl1 n i < n := by
  unfold refl1
  split
  · exact hn
  · split
    · omega
    · rename_i h1 h2
      omega

/-- 1D correlation along the depth axis with a radius-1 kernel, reflect
boundary (`scipy.ndimage.correlate1d`). -/
def corrZ (k0 k1 k2 : ℚ) (v : Volume3) : Volume3 :=
  ⟨v.dep, v.rows, v.cols, fun z y x =>
    k0 * v.val (refl1 v.dep ((z : ℤ) - 1)) y x + k1 * v.val z y x
      + k2 * v.val (refl1 v.dep ((z : ℤ) + 1)) y x⟩

/-- 1D correlation along the row axis. -/
def corrY (k0 k1 k2 : ℚ) (v : Volume3) : Volume3 :=
  ⟨v.dep, v.rows, v.cols, fun z y x =>
    k0 * v.val z (refl1 v.rows ((y : ℤ) - 1)) x + k1 * v.val z y x
      + k2 * v.val z (refl1 v.rows ((y : ℤ) + 1)) x⟩

/-- 1D correlation along the column axis. -/
def corrX (k0 k1 k2 : ℚ) (v : Volume3) : Volume3 :=
  ⟨v.dep, v.rows, v.cols, fun z y x =>
    k0 * v.val z y (refl1 v.cols ((x : ℤ) - 1)) + k1 * v.val z y x
      + k2 * v.val z y (refl1 v.cols ((x : ℤ) + 1))⟩

theorem corrZ_const {v : Volume3} {c : ℚ}
    (h : ∀ z y x, z < v.dep → y < v.rows → x < v.cols → v.val z y x = c)
    (k0 k1 k2 : ℚ) :
    ∀ z y x, z < v.dep → y < v.rows → x < v.cols →
      (corrZ k0 k1 k2 v).val z y x = (k0 + k1 + k2) * c := by
  intro z y x hz hy hx
  have hd : 0 < v.dep := lt_of_le_of_lt (Nat.zero_le z) hz
  show k0 * v.val (refl1 v.dep ((z : ℤ) - 1)) y x + k1 * v.val z y x
      + k2 * v.val (refl1 v.dep ((z : ℤ) + 1)) y x = (k0 + k1 + k2) * c
  rw [h _ _ _ (refl1_lt hd _) hy hx, h _ _ _ hz hy hx, h _ _ _ (refl1_lt hd _) hy hx]
  ring

theorem corrY_const {v : Volume3} {c : ℚ}
    (h : ∀ z y x, z < v.dep → y < v.rows → x < v.cols → v.val z y x = c)
    (k0 k1 k2 : ℚ) :
    ∀ z y x, z < v.dep → y < v.rows → x < v.cols →
      (corrY k0 k1 k2 v).val z y x = (k0 + k1 + k2) * c := by
  intro z y x hz hy hx
  have hr : 0 < v.rows := lt_of_le_of_lt (Nat.zero_le y) hy
  show k0 * v.val z (refl1 v.rows ((y : ℤ) - 1)) x + k1 * v.val z y x
      + k2 * v.val z (refl1 v.rows ((y : ℤ) + 1)) x = (k0 + k1 + k2) * c
  rw [h _ _ _ hz (refl1_lt hr _) hx, h _ _ _ hz hy hx, h _ _ _ hz (refl1_lt hr _) hx]
  ring

theorem corrX_const {v : Volume3} {c : ℚ}
    (h : ∀ z y x, z < v.dep → y < v.rows → x < v.cols → v.val z y x = c)
    (k0 k1 k2 : ℚ) :
    ∀ z y x, z < v.dep → y < v.rows → x < v.cols →
      (corrX k0 k1 k2 v).val z y x = (k0 + k1 + k2) * c := by
  intro z y x hz hy hx
  have hcc : 0 < v.cols := lt_of_le_of_lt (Nat.zero_le x) hx
  show k0 * v.val z y (refl1 v.cols ((x : ℤ) - 1)) + k1 * v.val z y x
      + k2 * v.val z y (refl1 v.cols ((x : ℤ) + 1)) = (k0 + k1 + k2) * c
  rw [h _ _ _ hz hy (refl1_lt hcc _), h _ _ _ hz hy hx, h _ _ _ hz hy (refl1_lt hcc _)]
  ring

/-- Model of `scipy.ndimage.gaussian_filter(volume, sigma=1.0)` (factory.py
line 323) in exact arithmetic: a separable reflect-boundary correlation with
a normalized symmetric kernel.  The truncated discrete Gaussian kernel is
replaced by the radius-1 normalized kernel (1/4, 1/2, 1/4); the proofs use
only that the weights sum to one. -/
def gaussianFilter (v : Volume3) : Volume3 :=
  corrZ (1/4) (1/2) (1/4) (corrY (1/4) (1/2) (1/4) (corrX (1/4) (1/2) (1/4) v))

/-- `scipy.ndimage.sobel(volume, axis=0)` (factory.py line 334): derivative
kernel (-1, 0, 1) on the depth axis, smoothing kernel (1, 2, 1) on the other
axes, reflect boundary. -/
def sobel0 (v : Volume3) : Volume3 := corrZ (-1) 0 1 (corrY 1 2 1 (corrX 1 2 1 v))

/-- `scipy.ndimage.sobel(volume, axis=1)` (factory.py line 335). -/
def sobel1 (v : Volume3) : Volume3 := corrY (-1) 0 1 (corrZ 1 2 1 (corrX 1 2 1 v))

/-- `scipy.ndimage.sobel(volume, axis=2)` (factory.py line 336). -/
def sobel2 (v : Volume3) : Volume3 := corrX (-1) 0 1 (corrZ 1 2 1 (corrY 1 2 1 v))

/-- The gradient-magnitude field `np.sqrt(gx*gx + gy*gy + gz*gz)` (factory.py
lines 334-337), modelled by its square.  The Euclidean norm is a monotone
function of this field, so the two are constant together — and constancy is
all the extraction logic ever inspects on this field: the one level computed
from it sits in a branch that is unreachable in exact arithmetic, because a
volume that reaches the gradient fallback is constant and therefore has an
identically-zero gradient (`gradSq_flat` below). -/
def gradSq (v : Volume3) : Volume3 :=
  ⟨v.dep, v.rows, v.cols, fun z y x =>
    (sobel0 v).val z y x * (sobel0 v).val z y x
      + (sobel1 v).val z y x * (sobel1 v).val z y x
      + (sobel2 v).val z y x * (sobel2 v).val z y x⟩

theorem gaussianFilter_flat {v : Volume3}
    (hd : 0 < v.dep) (hr : 0 < v.rows) (hc : 0 < v.cols)
    (hflat : volMin v = volMax v) :
    volMin (gaussianFilter v) = volMax (gaussianFilter v) := by
  have hconst : ∀ z y x, z < v.dep → y < v.rows → x < v.cols → v.val z y x = volMin v :=
    fun z y x hz hy hx => val_eq_of_flat hflat hz hy hx
  have h1 := corrX_const hconst (1/4) (1/2) (1/4)
  have h2 := corrY_const (v := corrX (1/4) (1/2) (1/4) v) h1 (1/4) (1/2) (1/4)
  have h3 := corrZ_const (v := corrY (1/4) (1/2) (1/4) (corrX (1/4) (1/2) (1/4) v)) h2
    (1/4) (1/2) (1/4)
  rw [volMin_of_const (v := gaussianFilter v) hd hr hc h3,
    volMax_of_const (v := gaussianFilter v) hd hr hc h3]

theorem sobel0_flat {v : Volume3} (hflat : volMin v = volMax v) :
    ∀ z y x, z < v.dep → y < v.rows → x < v.cols → (sobel0 v).val z y x = 0 := by
  have hconst : ∀ z y x, z < v.dep → y < v.rows → x < v.cols → v.val z y x = volMin v :=
    fun z y x hz hy hx => val_eq_of_flat hflat hz hy hx
  have h1 := corrX_const hconst 1 2 1
  have h2 := corrY_const (v := corrX 1 2 1 v) h1 1 2 1
  have h3 := corrZ_const (v := corrY 1 2 1 (corrX 1 2 1 v)) h2 (-1) 0 1
  intro z y x hz hy hx
  exact (h3 z y x hz hy hx).trans (by ring)

theorem sobel1_flat {v : Volume3} (hflat : volMin v = volMax v) :
    ∀ z y x, z < v.dep → y < v.rows → x < v.cols → (sobel1 v).val z y x = 0 := by
  have hconst : ∀ z y x, z < v.dep → y < v.rows → x < v.cols → v.val z y x = volMin v :=
    fun z y x hz hy hx => val_eq_of_flat hflat hz hy hx
  have h1 := corrX_const hconst 1 2 1
  have h2 := corrZ_const (v := corrX 1 2 1 v) h1 1 2 1
  have h3 := corrY_const (v := corrZ 1 2 1 (corrX 1 2 1 v)) h2 (-1) 0 1
  intro z y x hz hy hx
  exact (h3 z y x hz hy hx).trans (by ring)

theorem sobel2_flat {v : Volume3} (hflat : volMin v = volMax v) :
    ∀ z y x, z < v.dep → y < v.rows → x < v.cols → (sobel2 v).val z y x = 0 := by
  have hconst : ∀ z y x, z < v.dep → y < v.rows → x < v.cols → v.val z y x = volMin v :=
    fun z y x hz hy hx => val_eq_of_flat hflat hz hy hx
  have h1 := corrY_const hconst 1 2 1
  have h2 := corrZ_const (v := corrY 1 2 1 v) h1 1 2 1
  have h3 := corrX_const (v := corrZ 1 2 1 (corrY 1 2 1 v)) h2 (-1) 0 1
  intro z y x hz hy hx
  exact (h3 z y x hz hy hx).trans (by ring)

theorem gradSq_flat {v : Volume3} (hflat : volMin v = volMax v) :
    ∀ z y x, z < v.dep → y < v.rows → x < v.cols → (gradSq v).val z y x = 0 := by
  intro z y x hz hy hx
  show (sobel0 v).val z y x * (sobel0 v).val z y x
      + (sobel1 v).val z y x * (sobel1 v).val z y x
      + (sobel2 v).val z y x * (sobel2 v).val z y x = 0
  rw [sobel0_flat hflat z y x hz hy hx, sobel1_flat hflat z y x hz hy hx,
    sobel2_flat hflat z y x hz hy hx]
  ring

theorem gradSq_flat_minmax {v : Volume3}
    (hd : 0 < v.dep) (hr : 0 < v.rows) (hc : 0 < v.cols)
    (hflat : volMin v = volMax v) :
    volMin (gradSq v) = volMax (gradSq v) := by
  rw [volMin_of_const (v := gradSq v) hd hr hc (gradSq_flat hflat),
    volMax_of_const (v := gradSq v) hd hr hc (gradSq_flat hflat)]

/-! ### Surface extraction level selection (`_extract_surface`) -/

inductive TargetKind
  | original
  | smoothed
  | gradient
deriving DecidableEq

inductive ExtractErr
  | noIntensityVariation
deriving DecidableEq

/-- The scalar field a `TargetKind` stands for: the input volume, its
Gaussian-smoothed form, or the gradient-magnitude field of the input. -/
def targetOf : TargetKind → Volume3 → Volume3
  | .original, v => v
  | .smoothed, v => gaussianFilter v
  | .gradient, v => gradSq v

/-- `vmin + (vmax - vmin) * 0.5`, the midpoint expression used at factory.py
lines 345 and 353. -/
def midRange (a b : ℚ) : ℚ := a + (b - a) * (1/2)

/-- Initial clamp (factory.py lines 303-308): a requested iso-value outside
the volume's [min, max] range is replaced by the midpoint
`(volume.min() + volume.max()) / 2`. -/
def clamp0 (iso : ℚ) (v : Volume3) : ℚ :=
  if iso < volMin v ∨ volMax v < iso then (volMin v + volMax v) / 2 else iso

/-- Which target field survives the first fallback (factory.py lines
319-327): a zero-variation volume is replaced by its Gaussian-smoothed
form. -/
def stage1Kind (v : Volume3) : TargetKind :=
  if volMin v = volMax v then TargetKind.smoothed else TargetKind.original

/-- Final strict re-clamp (factory.py lines 351-356): a level not strictly
inside (min, max) of the target — including one equal to either bound — is
re-set to the midpoint before extraction. -/
def finalClamp (tk : TargetKind) (lvl : ℚ) (v : Volume3) :
    Except ExtractErr (TargetKind × ℚ) :=
  if volMin (targetOf tk v) < lvl ∧ lvl < volMax (targetOf tk v) then .ok (tk, lvl)
  else .ok (tk, midRange (volMin (targetOf tk v)) (volMax (targetOf tk v)))

/-- `_extract_surface` (factory.py lines 291-381) up to the call into
`skimage.measure.marching_cubes`: selects the target scalar field and the
level actually passed to marching cubes, or fails when no intensity
variation can be produced.  `.ok (tk, lvl)` means marching cubes is invoked
on `targetOf tk v` at level `lvl`; the external marching-cubes geometry is
beyond the embedding boundary.  The ladder: clamp an out-of-range iso-value
to the range midpoint; if the volume is constant, Gaussian-smooth it and
recompute the range; if still constant, fall back to the Sobel
gradient-magnitude field of the original volume with the level at the
midpoint of its range, failing when that field is constant too; finally
re-clamp the level strictly inside the target's range. -/
def extractSurface (iso : ℚ) (v : Volume3) : Except ExtractErr (TargetKind × ℚ) :=
  if volMin (targetOf (stage1Kind v) v) = volMax (targetOf (stage1Kind v) v) then
    if volMin (gradSq v) = volMax (gradSq v) then .error .noIntensityVariation
    else finalClamp TargetKind.gradient (midRange (volMin (gradSq v)) (volMax (gradSq v))) v
  else finalClamp (stage1Kind v) (clamp0 iso v) v

/-- C2: a volume with zero intensity variation is Gaussian-smoothed and the
range recomputed; the smoothed range is still zero, so the Sobel
gradient-magnitude fallback is computed; that field is itself constant, and
the extraction fails with the no-intensity-variation extraction error —
no target field and level are ever handed to marching cubes. -/
theorem flat_volume_extraction_fails (iso : ℚ) (v : Volume3)
    (hd : 0 < v.dep) (hr : 0 < v.rows) (hc : 0 < v.cols)
    (hflat : volMin v = volMax v) :
    extractSurface iso v = .error .noIntensityVariation
    ∧ volMin (gaussianFilter v) = volMax (gaussianFilter v)
    ∧ volMin (gradSq v) = volMax (gradSq v) := by
  have hg := gaussianFilter_flat hd hr hc hflat
  have hgr := gradSq_flat_minmax hd hr hc hflat
  refine ⟨?_, hg, hgr⟩
  have h1 : stage1Kind v = .smoothed := by
    unfold stage1Kind
    exact if_pos hflat
  unfold extractSurface
  rw [h1]
  rw [if_pos (show volMin (targetOf .smoothed v) = volMax (targetOf .smoothed v) from hg)]
  rw [if_pos hgr]

/-- Constant volume for the C2 witness. -/
def vFlat : Volume3 := ⟨1, 1, 2, fun _ _ _ => 7⟩

/-- Witness for C2: a 1 x 1 x 2 all-7 volume with requested iso-value 100. -/
theorem flat_volume_extraction_fails_witness :
    extractSurface 100 vFlat = .error .noIntensityVariation
    ∧ volMin (gaussianFilter vFlat) = volMax (gaussianFilter vFlat)
    ∧ volMin (gradSq vFlat) = volMax (gradSq vFlat) :=
  flat_volume_extraction_fails 100 vFlat (by decide) (by decide) (by decide) (by decide)

theorem midRange_mem {a b : ℚ} (h : a < b) : a < midRange a b ∧ midRange a b < b := by
  unfold midRange
  constructor <;> linarith

theorem finalClamp_strict (tk : TargetKind) (lvl : ℚ) (v : Volume3)
    (hlt : volMin (targetOf tk v) < volMax (targetOf tk v)) :
    ∀ tk2 lvl2, finalClamp tk lvl v = .ok (tk2, lvl2) →
      tk2 = tk ∧ volMin (targetOf tk v) < lvl2 ∧ lvl2 < volMax (targetOf tk v) := by
  intro tk2 lvl2 h
  unfold finalClamp at h
  split at h
  · rename_i hin
    simp only [Except.ok.injEq, Prod.mk.injEq] at h
    obtain ⟨h1, h2⟩ := h
    subst h1
    subst h2
    exact ⟨rfl, hin⟩
  · simp only [Except.ok.injEq, Prod.mk.injEq] at h
    obtain ⟨h1, h2⟩ := h
    subst h1
    subst h2
    exact ⟨rfl, midRange_mem hlt⟩

/-- C6: every level actually handed to marching cubes lies strictly inside
the open interval (min, max) of the target field being contoured, and a
requested iso-value outside the volume's [min, max] is replaced by the
midpoint of that range. -/
theorem level_strictly_inside (iso : ℚ) (v : Volume3) :
    (∀ tk lvl, extractSurface iso v = .ok (tk, lvl) →
        volMin (targetOf tk v) < lvl ∧ lvl < volMax (targetOf tk v))
    ∧ (volMin v ≠ volMax v → (iso < volMin v ∨ volMax v < iso) →
        extractSurface iso v = .ok (.original, (volMin v + volMax v) / 2)) := by
  constructor
  · intro tk lvl h
    unfold extractSurface at h
    by_cases h1 : volMin (targetOf (stage1Kind v) v) = volMax (targetOf (stage1Kind v) v)
    · rw [if_pos h1] at h
      by_cases h2 : volMin (gradSq v) = volMax (gradSq v)
      · rw [if_pos h2] at h
        cases h
      · rw [if_neg h2] at h
        have hlt : volMin (targetOf .gradient v) < volMax (targetOf .gradient v) :=
          lt_of_le_of_ne (volMin_le_volMax _) h2
        obtain ⟨htk, hb⟩ := finalClamp_strict .gradient _ v hlt tk lvl h
        subst htk
        exact hb
    · rw [if_neg h1] at h
      have hlt : volMin (targetOf (stage1Kind v) v) < volMax (targetOf (stage1Kind v) v) :=
        lt_of_le_of_ne (volMin_le_volMax _) h1
      obtain ⟨htk, hb⟩ := finalClamp_strict (stage1Kind v) _ v hlt tk lvl h
      subst htk
      exact hb
  · intro hne hout
    have hsk : stage1Kind v = .original := by
      unfold stage1Kind
      exact if_neg hne
    have hlt : volMin v < volMax v := lt_of_le_of_ne (volMin_le_volMax v) hne
    unfold extractSurface
    rw [hsk]
    rw [if_neg (show ¬(volMin (targetOf .original v) = volMax (targetOf .original v)) from hne)]
    have hcl : clamp0 iso v = (volMin v + volMax v) / 2 := by
      unfold clamp0
      exact if_pos hout
    rw [hcl]
    unfold finalClamp
    rw [if_pos (show volMin (targetOf .original v) < (volMin v + volMax v) / 2
        ∧ (volMin v + volMax v) / 2 < volMax (targetOf .original v) by
      refine ⟨?_, ?_⟩
      · show volMin v < (volMin v + volMax v) / 2
        linarith
      · show (volMin v + volMax v) / 2 < volMax v
        linarith)]

/-- Two-valued volume for the C6 witness: values 0 and 10. -/
def vStep : Volume3 := ⟨1, 1, 2, fun _ _ x => if x = 0 then 0 else 10⟩

/-- Witness for C6: requested iso-value 100 lies above the range [0, 10], is
replaced by the midpoint 5, and the final level is strictly inside (0, 10). -/
theorem level_strictly_inside_witness :
    extractSurface 100 vStep = .ok (.original, (volMin vStep + volMax vStep) / 2)
    ∧ volMin (targetOf .original vStep) < (volMin vStep + volMax vStep) / 2
    ∧ (volMin vStep + volMax vStep) / 2 < volMax (targetOf .original vStep) := by
  have h2 := (level_strictly_inside 100 vStep).2 (by decide) (by decide)
  exact ⟨h2, (level_strictly_inside 100 vStep).1 .original ((volMin vStep + volMax vStep) / 2) h2⟩

/-! ### Slice rendering (`_extract_slice_data`, `_normalize_to_image`) -/

inductive SliceErr
  | outOfRange (plane : String) (idx : ℤ) (lo hi : ℤ)
  | invalidPlane
deriving DecidableEq

/-- `_extract_slice_data` (factory.py lines 549-564): select the 2D
cross-section of the volume for a plane tag and integer index.  The
out-of-range error carries the pieces of the Python message
`Índice <plane> {index} fora do intervalo [0, {dim-1}]`: the plane label,
the offending index and the inclusive bounds 0 and dim-1. -/
def extractSliceData (v : Volume3) (plane : String) (index : ℤ) :
    Except SliceErr (List (List ℚ)) :=
  if plane = "axial" then
    if 0 ≤ index ∧ index < (v.dep : ℤ) then
      .ok ((List.range v.rows).map fun y => (List.range v.cols).map fun x =>
        v.val index.toNat y x)
    else .error (.outOfRange ("Axial") index 0 ((v.dep : ℤ) - 1))
  else if plane = "coronal" then
    if 0 ≤ index ∧ index < (v.rows : ℤ) then
      .ok ((List.range v.dep).map fun z => (List.range v.cols).map fun x =>
        v.val z index.toNat x)
    else .error (.outOfRange ("Coronal") index 0 ((v.rows : ℤ) - 1))
  else if plane = "sagittal" then
    if 0 ≤ index ∧ index < (v.cols : ℤ) then
      .ok ((List.range v.dep).map fun z => (List.range v.rows).map fun y =>
        v.val z y index.toNat)
    else .error (.outOfRange ("Sagital") index 0 ((v.cols : ℤ) - 1))
  else .error .invalidPlane

/-- The volume extent along the axis a plane tag selects: axial indexes the
depth axis, coronal the rows, sagittal the columns. -/
def dimFor (v : Volume3) (plane : String) : ℕ :=
  if plane = "axial" then v.dep else if plane = "coronal" then v.rows else v.cols

/-- The plane label appearing in the error message (the source message is
Portuguese: Axial / Coronal / Sagital). -/
def planeLabel (plane : String) : String :=
  if plane = "axial" then "Axial" else if plane = "coronal" then "Coronal" else "Sagital"

/-- C8: a slice request succeeds exactly when `0 <= index < dim(plane)`; any
other index produces the range error naming the valid range — the inclusive
bounds [0, dim-1] it carries denote exactly the integer set [0, dim). -/
theorem slice_index_range (v : Volume3) (plane : String) (index : ℤ)
    (hp : plane = "axial" ∨ plane = "coronal" ∨ plane = "sagittal") :
    ((∃ fr, extractSliceData v plane index = .ok fr)
        ↔ 0 ≤ index ∧ index < (dimFor v plane : ℤ))
    ∧ (¬(0 ≤ index ∧ index < (dimFor v plane : ℤ)) →
        extractSliceData v plane index
          = .error (.outOfRange (planeLabel plane) index 0 ((dimFor v plane : ℤ) - 1))
        ∧ ∀ j : ℤ, (0 ≤ j ∧ j ≤ (dimFor v plane : ℤ) - 1)
            ↔ (0 ≤ j ∧ j < (dimFor v plane : ℤ))) := by
  rcases hp with rfl | rfl | rfl
  · refine ⟨⟨?_, ?_⟩, ?_⟩
    · rintro ⟨fr, hfr⟩
      by_contra hcon
      have hcon' : ¬(0 ≤ index ∧ index < (v.dep : ℤ)) := hcon
      unfold extractSliceData at hfr
      rw [if_pos rfl, if_neg hcon'] at hfr
      cases hfr
    · intro hidx
      have hidx' : 0 ≤ index ∧ index < (v.dep : ℤ) := hidx
      unfold extractSliceData
      rw [if_pos rfl, if_pos hidx']
      exact ⟨_, rfl⟩
    · intro hidx
      have hidx' : ¬(0 ≤ index ∧ index < (v.dep : ℤ)) := hidx
      constructor
      · unfold extractSliceData
        rw [if_pos rfl, if_neg hidx']
        rfl
      · intro j
        omega
  · refine ⟨⟨?_, ?_⟩, ?_⟩
    · rintro ⟨fr, hfr⟩
      by_contra hcon
      have hcon' : ¬(0 ≤ index ∧ index < (v.rows : ℤ)) := hcon
      unfold extractSliceData at hfr
      rw [if_neg (by decide), if_pos rfl, if_neg hcon'] at hfr
      cases hfr
    · intro hidx
      have hidx' : 0 ≤ index ∧ index < (v.rows : ℤ) := hidx
      unfold extractSliceData
      rw [if_neg (by decide), if_pos rfl, if_pos hidx']
      exact ⟨_, rfl⟩
    · intro hidx
      have hidx' : ¬(0 ≤ index ∧ index < (v.rows : ℤ)) := hidx
      constructor
      · unfold extractSliceData
        rw [if_neg (by decide), if_pos rfl, if_neg hidx']
        rfl
      · intro j
        omega
  · refine ⟨⟨?_, ?_⟩, ?_⟩
    · rintro ⟨fr, hfr⟩
      by_contra hcon
      have hcon' : ¬(0 ≤ index ∧ index < (v.cols : ℤ)) := hcon
      unfold extractSliceData at hfr
      rw [if_neg (by decide), if_neg (by decide), if_pos rfl, if_neg hcon'] at hfr
      cases hfr
    · intro hidx
      have hidx' : 0 ≤ index ∧ index < (v.cols : ℤ) := hidx
      unfold extractSliceData
      rw [if_neg (by decide), if_neg (by decide), if_pos rfl, if_pos hidx']
      exact ⟨_, rfl⟩
    · intro hidx
      have hidx' : ¬(0 ≤ index ∧ index < (v.cols : ℤ)) := hidx
      constructor
      · unfold extractSliceData
        rw [if_neg (by decide), if_neg (by decide), if_pos rfl, if_neg hidx']
        rfl
      · intro j
        omega

/-- A 4 x 5 x 3 volume for the C8 witness. -/
def vDims : Volume3 := ⟨4, 5, 3, fun _ _ _ => 0⟩

/-- Witness for C8 at the spec's concrete scenario: sagittal index -1 yields
the range error whose carried bounds [0, cols-1] denote exactly [0, cols). -/
theorem slice_index_range_witness :
    extractSliceData vDims ("sagittal") (-1)
      = .error (.outOfRange (planeLabel ("sagittal")) (-1) 0 ((dimFor vDims ("sagittal") : ℤ) - 1))
    ∧ ∀ j : ℤ, (0 ≤ j ∧ j ≤ (dimFor vDims ("sagittal") : ℤ) - 1)
        ↔ (0 ≤ j ∧ j < (dimFor vDims ("sagittal") : ℤ)) :=
  (slice_index_range vDims ("sagittal") (-1) (Or.inr (Or.inr rfl))).2 (by decide)

/-- Scalar minimum of a 2D slice (`slice_data.min()`); 0 on an empty slice,
which `_normalize_to_image` is never fed. -/
def frameMin (f : List (List ℚ)) : ℚ :=
  match f.flatten with
  | [] => 0
  | x :: xs => xs.foldl min x

/-- Scalar maximum of a 2D slice (`slice_data.max()`). -/
def frameMax (f : List (List ℚ)) : ℚ :=
  match f.flatten with
  | [] => 0
  | x :: xs => xs.foldl max x

/-- `astype(np.uint8)` on the nonnegative interpolation output: truncation
toward zero, which on nonnegative rationals is the floor. -/
def toUint8 (q : ℚ) : ℕ := (Int.floor q).toNat

/-- `_normalize_to_image` (factory.py lines 566-573): when the slice has a
degenerate scalar range, the all-zero image of the same shape is returned
(avoiding the division by zero); otherwise `np.interp` maps [min, max]
linearly onto [0, 255] and the result is converted to 8-bit. -/
def normalizeToImage (f : List (List ℚ)) : List (List ℕ) :=
  if frameMin f = frameMax f then f.map (fun row => row.map (fun _ => 0))
  else f.map (fun row => row.map (fun x =>
    toUint8 ((x - frameMin f) * 255 / (frameMax f - frameMin f))))

theorem frameMin_le_mem {f : List (List ℚ)} {row : List ℚ} {x : ℚ}
    (hr : row ∈ f) (hx : x ∈ row) : frameMin f ≤ x := by
  have hj : x ∈ f.flatten := List.mem_flatten.mpr ⟨row, hr, hx⟩
  unfold frameMin
  cases hjoin : f.flatten with
  | nil => rw [hjoin] at hj; cases hj
  | cons a as =>
    rw [hjoin] at hj
    show List.foldl min a as ≤ x
    rcases List.mem_cons.mp hj with rfl | hmem
    · exact foldl_min_le_init as x
    · exact foldl_min_le_mem hmem a

theorem mem_le_frameMax {f : List (List ℚ)} {row : List ℚ} {x : ℚ}
    (hr : row ∈ f) (hx : x ∈ row) : x ≤ frameMax f := by
  have hj : x ∈ f.flatten := List.mem_flatten.mpr ⟨row, hr, hx⟩
  unfold frameMax
  cases hjoin : f.flatten with
  | nil => rw [hjoin] at hj; cases hj
  | cons a as =>
    rw [hjoin] at hj
    show x ≤ List.foldl max a as
    rcases List.mem_cons.mp hj with rfl | hmem
    · exact init_le_foldl_max as x
    · exact mem_le_foldl_max hmem a

theorem frameMin_le_frameMax (f : List (List ℚ)) : frameMin f ≤ frameMax f := by
  unfold frameMin frameMax
  cases hjoin : f.flatten with
  | nil => exact le_refl 0
  | cons a as => exact le_trans (foldl_min_le_init as a) (init_le_foldl_max as a)

theorem toUint8_le_255 {q : ℚ} (h : q ≤ 255) : toUint8 q ≤ 255 := by
  unfold toUint8
  have h1 : Int.floor q ≤ (255 : ℤ) := by
    have h2 := Int.floor_mono h
    simpa using h2
  omega

/-- C9: image normalization preserves the slice shape; a degenerate
(min = max) slice yields the all-zero image with no division performed;
otherwise every cell is the linear interpolation of [min, max] onto
[0, 255] converted to 8-bit — cells at the minimum map to 0, cells at the
maximum to 255, and every output stays at most 255. -/
theorem normalize_to_image_spec (f : List (List ℚ)) :
    (normalizeToImage f).map List.length = f.map List.length
    ∧ (frameMin f = frameMax f → ∀ row ∈ normalizeToImage f, ∀ e ∈ row, e = 0)
    ∧ (frameMin f ≠ frameMax f →
        normalizeToImage f = f.map (fun row => row.map (fun x =>
          toUint8 ((x - frameMin f) * 255 / (frameMax f - frameMin f))))
        ∧ ∀ row ∈ f, ∀ x ∈ row,
            toUint8 ((x - frameMin f) * 255 / (frameMax f - frameMin f)) ≤ 255
            ∧ (x = frameMin f →
                toUint8 ((x - frameMin f) * 255 / (frameMax f - frameMin f)) = 0)
            ∧ (x = frameMax f →
                toUint8 ((x - frameMin f) * 255 / (frameMax f - frameMin f)) = 255)) := by
  refine ⟨?_, ?_, ?_⟩
  · unfold normalizeToImage
    split <;> simp [List.map_map, Function.comp_def]
  · intro h row hrow e he
    unfold normalizeToImage at hrow
    rw [if_pos h] at hrow
    obtain ⟨r0, _, rfl⟩ := List.mem_map.mp hrow
    obtain ⟨x0, _, rfl⟩ := List.mem_map.mp he
    rfl
  · intro h
    have hlt : frameMin f < frameMax f := lt_of_le_of_ne (frameMin_le_frameMax f) h
    constructor
    · unfold normalizeToImage
      rw [if_neg h]
    · intro row hrow x hx
      have hmn : frameMin f ≤ x := frameMin_le_mem hrow hx
      have hmx : x ≤ frameMax f := mem_le_frameMax hrow hx
      refine ⟨?_, ?_, ?_⟩
      · apply toUint8_le_255
        rw [div_le_iff₀ (by linarith)]
        linarith
      · intro hxe
        rw [hxe]
        norm_num [toUint8]
      · intro hxe
        rw [hxe]
        have hne : frameMax f - frameMin f ≠ 0 := ne_of_gt (by linarith)
        rw [mul_comm, mul_div_assoc, div_self hne, mul_one]
        simp [toUint8]

/-- Witness for C9: the constant slice [[3, 3]] normalizes to the all-zero
image, and the slice [[0, 5], [10, 10]] maps through the linear [0, 255]
interpolation. -/
theorem normalize_to_image_spec_witness :
    (∀ row ∈ normalizeToImage [[(3 : ℚ), 3]], ∀ e ∈ row, e = 0)
    ∧ normalizeToImage [[(0 : ℚ), 5], [10, 10]]
        = [[(0 : ℚ), 5], [10, 10]].map (fun row => row.map (fun x =>
            toUint8 ((x - frameMin [[(0 : ℚ), 5], [10, 10]]) * 255
              / (frameMax [[(0 : ℚ), 5], [10, 10]] - frameMin [[(0 : ℚ), 5], [10, 10]])))) :=
  ⟨(normalize_to_image_spec [[(3 : ℚ), 3]]).2.1 (by decide),
   ((normalize_to_image_spec [[(0 : ℚ), 5], [10, 10]]).2.2 (by decide)).1⟩

end SID3D
